import Mathlib

/-!
Shallow embedding of the crosscors CORS middleware (src/index.ts).

The middleware consists of a pure origin matcher (`matchOrigin`) and a
decision function (`handleCors`, produced by `crosscors`) that, given a
request view and a response view, decides allow/deny, mutates the
response's header set on allow, and handles preflight (OPTIONS)
termination.

Modelling choices, faithful to the JavaScript/TypeScript source:
* JS truthiness of an optional string (`undefined` and `""` are falsy)
  is `jsTruthyStr`; truthiness of the origin-policy union value is
  `truthyRule` (an empty string literal is falsy, every RegExp, array
  and function value is truthy).
* A RegExp is embedded by its `test` predicate (`String → Bool`).
* A dynamic origin function returning a promise is embedded as a
  function into `Except Err Bool`: `Except.error` is a synchronous
  throw or a promise rejection, which the source does NOT catch.
* The response view records exactly the seven headers the source ever
  sets, plus the status code and whether `end()` was called.
-/

abbrev Err := String

/-- Request view: the fields of `IncomingMessage` the middleware reads
(`headers.origin`, `method`, `headers[ ]` for
access-control-request-headers). -/
structure Request where
  origin : Option String := none
  method : Option String := none
  accessControlRequestHeaders : Option String := none
deriving DecidableEq, Repr

/-- Embedding of the TypeScript union `CrossCorsOrigin`:
string | RegExp | Array<string | RegExp> | function. -/
inductive CrossCorsOrigin where
  | str (s : String)
  | regex (test : String → Bool)
  | list (l : List (Sum String (String → Bool)))
  | fn (f : Option String → Request → Except Err Bool)

/-- Options bag `CrossCorsOptions`; every field optional, as in the
source interface. -/
structure CrossCorsOptions where
  origin : Option CrossCorsOrigin := none
  methods : Option (List String) := none
  allowedHeaders : Option (List String) := none
  exposedHeaders : Option (List String) := none
  credentials : Option Bool := none
  maxAge : Option Nat := none
  preflightContinue : Option Bool := none
  optionsSuccessStatus : Option Nat := none
  log : Option Bool := none

/-- Response view: the seven headers the source can set, the status
code, and whether `res.end()` has been called. -/
structure ServerResponse where
  accessControlAllowOrigin : Option String := none
  vary : Option String := none
  accessControlAllowMethods : Option String := none
  accessControlAllowHeaders : Option String := none
  accessControlExposeHeaders : Option String := none
  accessControlAllowCredentials : Option String := none
  accessControlMaxAge : Option String := none
  statusCode : Nat := 200
  ended : Bool := false
deriving DecidableEq, Repr

/-- JS truthiness of `string | undefined`: `undefined` and `""` are
falsy, every other string truthy. -/
def jsTruthyStr : Option String → Bool
  | none => false
  | some s => s ≠ ""

/-- JS truthiness of `CrossCorsOrigin | undefined` (the check
`!ruleOrigin` in the source): `undefined` and the empty string literal
are falsy; RegExp, array (even empty) and function values are truthy. -/
def truthyRule : Option CrossCorsOrigin → Bool
  | none => false
  | some (CrossCorsOrigin.str s) => s ≠ ""
  | some _ => true

/-- Embedding of `matchOrigin(ruleOrigin, reqOrigin, req)` from the
source: default-allow when the rule is falsy, deny when the request
origin is falsy, then dispatch on the rule variant.  The dynamic
function's result (including a rejection, `Except.error`) is returned
uncaught. -/
def matchOrigin (ruleOrigin : Option CrossCorsOrigin) (reqOrigin : Option String)
    (req : Request) : Except Err Bool :=
  if truthyRule ruleOrigin = false then Except.ok true
  else if jsTruthyStr reqOrigin = false then Except.ok false
  else
    match ruleOrigin with
    | some (CrossCorsOrigin.str s) =>
        Except.ok (s == "*" || some s == reqOrigin)
    | some (CrossCorsOrigin.regex t) =>
        Except.ok (t (reqOrigin.getD ""))
    | some (CrossCorsOrigin.list l) =>
        Except.ok (l.any fun o =>
          match o with
          | Sum.inl s => some s == reqOrigin
          | Sum.inr t => t (reqOrigin.getD ""))
    | some (CrossCorsOrigin.fn f) => f reqOrigin req
    | none => Except.ok false

/-- Configuration after the destructuring defaults at the top of
`crosscors`. -/
structure ResolvedConfig where
  origin : CrossCorsOrigin
  methods : List String
  allowedHeaders : Option (List String)
  exposedHeaders : Option (List String)
  credentials : Bool
  maxAge : Option Nat
  preflightContinue : Bool
  optionsSuccessStatus : Nat
  log : Bool

/-- Destructuring defaults of `crosscors(options)`:
origin `"*"`, methods GET HEAD PUT PATCH POST DELETE, credentials
false, preflightContinue false, optionsSuccessStatus 204, log false. -/
def resolve (options : CrossCorsOptions) : ResolvedConfig where
  origin := options.origin.getD (CrossCorsOrigin.str "*")
  methods := options.methods.getD ["GET", "HEAD", "PUT", "PATCH", "POST", "DELETE"]
  allowedHeaders := options.allowedHeaders
  exposedHeaders := options.exposedHeaders
  credentials := options.credentials.getD false
  maxAge := options.maxAge
  preflightContinue := options.preflightContinue.getD false
  optionsSuccessStatus := options.optionsSuccessStatus.getD 204
  log := options.log.getD false

/-- Check `origin === '*'` used when choosing the allow-origin header
value. -/
def isWildcard : CrossCorsOrigin → Bool
  | CrossCorsOrigin.str s => s == "*"
  | _ => false

/-- Character-wise upper casing, modelling `String.toUpperCase` on the
ASCII method names the middleware compares. -/
def toUpperCase (s : String) : String := String.mk (s.data.map Char.toUpper)

/-- Method normalization `req.method ? req.method.toUpperCase() : ''`. -/
def normalizeMethod (m : Option String) : String :=
  if jsTruthyStr m then toUpperCase (m.getD "") else ""

/-- Header-setting block of `handleCors` (steps between a conclusive
allow and the preflight branch): the sequence of `res.setHeader`
calls, in source order. -/
def setCorsHeaders (cfg : ResolvedConfig) (req : Request)
    (res : ServerResponse) : ServerResponse :=
  let res1 :=
    if jsTruthyStr req.origin then
      { res with
        accessControlAllowOrigin :=
          some (if isWildcard cfg.origin then "*" else req.origin.getD "")
        vary := some "Origin" }
    else res
  let res2 :=
    { res1 with accessControlAllowMethods := some (String.intercalate "," cfg.methods) }
  let res3 :=
    match cfg.allowedHeaders with
    | some hs => { res2 with accessControlAllowHeaders := some (String.intercalate "," hs) }
    | none =>
        if jsTruthyStr req.accessControlRequestHeaders then
          { res2 with accessControlAllowHeaders := req.accessControlRequestHeaders }
        else res2
  let res4 :=
    match cfg.exposedHeaders with
    | some hs => { res3 with accessControlExposeHeaders := some (String.intercalate "," hs) }
    | none => res3
  let res5 :=
    if cfg.credentials then { res4 with accessControlAllowCredentials := some "true" }
    else res4
  match cfg.maxAge with
  | some n => { res5 with accessControlMaxAge := some (toString n) }
  | none => res5

/-- Body of the middleware returned by `crosscors`: awaits
`matchOrigin` (a rejection propagates, leaving the response untouched),
on deny returns false without mutation, on allow sets the CORS headers
and branches on the normalized method for preflight handling. -/
def handleCors (cfg : ResolvedConfig) (req : Request)
    (res : ServerResponse) : Except Err Bool × ServerResponse :=
  let reqMethod := normalizeMethod req.method
  match matchOrigin (some cfg.origin) req.origin req with
  | Except.error e => (Except.error e, res)
  | Except.ok false => (Except.ok false, res)
  | Except.ok true =>
      let res1 := setCorsHeaders cfg req res
      if reqMethod == "OPTIONS" then
        if cfg.preflightContinue then (Except.ok false, res1)
        else (Except.ok true,
              { res1 with statusCode := cfg.optionsSuccessStatus, ended := true })
      else (Except.ok false, res1)

/-- The exported `crosscors(options)` middleware applied to a request
and response. -/
def crosscors (options : CrossCorsOptions) (req : Request)
    (res : ServerResponse) : Except Err Bool × ServerResponse :=
  handleCors (resolve options) req res

/-! ## Helper lemmas -/

/-- Closed form of `setCorsHeaders`: each response field as a function
of the configuration, the request and the initial field value. -/
theorem setCorsHeaders_eq (cfg : ResolvedConfig) (req : Request) (res : ServerResponse) :
    setCorsHeaders cfg req res =
      { accessControlAllowOrigin :=
          if jsTruthyStr req.origin then
            some (if isWildcard cfg.origin then "*" else req.origin.getD "")
          else res.accessControlAllowOrigin
        vary := if jsTruthyStr req.origin then some "Origin" else res.vary
        accessControlAllowMethods := some (String.intercalate "," cfg.methods)
        accessControlAllowHeaders :=
          match cfg.allowedHeaders with
          | some hs => some (String.intercalate "," hs)
          | none =>
              if jsTruthyStr req.accessControlRequestHeaders then
                req.accessControlRequestHeaders
              else res.accessControlAllowHeaders
        accessControlExposeHeaders :=
          match cfg.exposedHeaders with
          | some hs => some (String.intercalate "," hs)
          | none => res.accessControlExposeHeaders
        accessControlAllowCredentials :=
          if cfg.credentials then some "true" else res.accessControlAllowCredentials
        accessControlMaxAge :=
          match cfg.maxAge with
          | some n => some (toString n)
          | none => res.accessControlMaxAge
        statusCode := res.statusCode
        ended := res.ended } := by
  cases res
  unfold setCorsHeaders
  repeat' split
  all_goals rfl

/-- On an allowing match, `handleCors` sets the headers and branches on
the normalized method. -/
theorem handleCors_allow (cfg : ResolvedConfig) (req : Request) (res : ServerResponse)
    (h : matchOrigin (some cfg.origin) req.origin req = Except.ok true) :
    handleCors cfg req res =
      if normalizeMethod req.method == "OPTIONS" then
        if cfg.preflightContinue then (Except.ok false, setCorsHeaders cfg req res)
        else (Except.ok true,
              { setCorsHeaders cfg req res with
                statusCode := cfg.optionsSuccessStatus, ended := true })
      else (Except.ok false, setCorsHeaders cfg req res) := by
  unfold handleCors
  rw [h]

/-- On a denying match, `handleCors` returns false and leaves the
response untouched. -/
theorem handleCors_deny (cfg : ResolvedConfig) (req : Request) (res : ServerResponse)
    (h : matchOrigin (some cfg.origin) req.origin req = Except.ok false) :
    handleCors cfg req res = (Except.ok false, res) := by
  unfold handleCors
  rw [h]

/-- On a failing match, `handleCors` propagates the failure and leaves
the response untouched. -/
theorem handleCors_error (cfg : ResolvedConfig) (req : Request) (res : ServerResponse)
    (e : Err) (h : matchOrigin (some cfg.origin) req.origin req = Except.error e) :
    handleCors cfg req res = (Except.error e, res) := by
  unfold handleCors
  rw [h]

/-- Projecting the header fields of the response produced by an
allowing `handleCors` run: the preflight branch only touches the
status code and the ended flag. -/
theorem handleCors_allow_snd_headers (cfg : ResolvedConfig) (req : Request)
    (res : ServerResponse)
    (h : matchOrigin (some cfg.origin) req.origin req = Except.ok true) :
    ((handleCors cfg req res).2).accessControlAllowOrigin =
      (setCorsHeaders cfg req res).accessControlAllowOrigin ∧
    ((handleCors cfg req res).2).vary = (setCorsHeaders cfg req res).vary ∧
    ((handleCors cfg req res).2).accessControlAllowMethods =
      (setCorsHeaders cfg req res).accessControlAllowMethods ∧
    ((handleCors cfg req res).2).accessControlAllowHeaders =
      (setCorsHeaders cfg req res).accessControlAllowHeaders := by
  rw [handleCors_allow cfg req res h]
  repeat' split
  all_goals exact ⟨rfl, rfl, rfl, rfl⟩

/-- Setting the CORS headers twice with the same configuration and
request is the same as setting them once. -/
theorem setCorsHeaders_idem (cfg : ResolvedConfig) (req : Request) (res : ServerResponse) :
    setCorsHeaders cfg req (setCorsHeaders cfg req res) = setCorsHeaders cfg req res := by
  simp only [setCorsHeaders_eq]
  repeat' split
  all_goals simp_all

/-- Setting the CORS headers commutes with updating the status code
and the ended flag. -/
theorem setCorsHeaders_state_update (cfg : ResolvedConfig) (req : Request)
    (res : ServerResponse) (a : Nat) (b : Bool) :
    setCorsHeaders cfg req { res with statusCode := a, ended := b } =
      { setCorsHeaders cfg req res with statusCode := a, ended := b } := by
  simp only [setCorsHeaders_eq]

/-! ## Concrete fixtures -/

/-- Fresh response, as handed to the middleware by the host server. -/
def emptyResponse : ServerResponse := {}

/-- Request with origin https://a.test and nothing else. -/
def reqA : Request := { origin := some "https://a.test" }

/-- Request with origin https://b.test and nothing else. -/
def reqB : Request := { origin := some "https://b.test" }

/-- Preflight request: origin https://a.test, method options (lower
case, to exercise normalization). -/
def reqOpt : Request := { origin := some "https://a.test", method := some "options" }

/-- Request carrying an Access-Control-Request-Headers value. -/
def reqHdr : Request :=
  { origin := some "https://a.test", accessControlRequestHeaders := some "X-Foo,X-Bar" }

/-- Options with an exact-string origin policy. -/
def exactOptions : CrossCorsOptions :=
  { origin := some (CrossCorsOrigin.str "https://a.test") }

/-- Options whose dynamic origin predicate always fails (throws or
rejects). -/
def dynFailOptions : CrossCorsOptions :=
  { origin := some (CrossCorsOrigin.fn fun _ _ => Except.error "boom") }

/-! ## Claims -/

/-- C3: on denial (the origin matcher resolves false) the middleware
returns false and mutates nothing on the response: no header is set,
the status code is untouched and the response is not ended, for every
configuration and every request that fails origin matching. -/
theorem C3_denial_leaves_response_untouched (options : CrossCorsOptions)
    (req : Request) (res : ServerResponse)
    (h : matchOrigin (some (resolve options).origin) req.origin req = Except.ok false) :
    crosscors options req res = (Except.ok false, res) :=
  handleCors_deny _ _ _ h

/-- Witness for C3 at an exact-string policy and a non-matching
origin. -/
theorem C3_denial_leaves_response_untouched_witness :
    crosscors exactOptions reqB emptyResponse = (Except.ok false, emptyResponse) :=
  C3_denial_leaves_response_untouched exactOptions reqB emptyResponse rfl

/-- C4 counterexample: the claim covers every string literal including
the empty string, but the source treats an empty string policy as
falsy (`!ruleOrigin`) and allows unconditionally, although the literal
equals neither "*" nor the request origin. -/
theorem C4_counterexample :
    matchOrigin (some (CrossCorsOrigin.str "")) (some "https://evil.test") reqA =
      Except.ok true ∧
    ("" : String) ≠ "*" ∧ ("" : String) ≠ "https://evil.test" :=
  ⟨rfl, by decide, by decide⟩

/-- C4 amended: for a NON-EMPTY string literal, the matcher returns
true iff the request origin is truthy (present and non-empty) and the
literal equals "*" or equals the origin byte-for-byte; an empty
literal is treated as an absent policy instead. -/
theorem C4_exact_string (s : String) (o : Option String) (req : Request)
    (hs : s ≠ "") :
    matchOrigin (some (CrossCorsOrigin.str s)) o req = Except.ok true ↔
      jsTruthyStr o = true ∧ (s = "*" ∨ o = some s) := by
  have h1 : truthyRule (some (CrossCorsOrigin.str s)) = true := by
    simp [truthyRule, hs]
  unfold matchOrigin
  rw [h1]
  by_cases ho : jsTruthyStr o = true
  · simp [ho]
    constructor
    · rintro (h | h)
      · exact Or.inl h
      · exact Or.inr h.symm
    · rintro (h | h)
      · exact Or.inl h
      · exact Or.inr h.symm
  · simp only [Bool.not_eq_true] at ho
    simp [ho]

/-- Witness for C4 amended at a matching exact origin. -/
theorem C4_exact_string_witness :
    matchOrigin (some (CrossCorsOrigin.str "https://a.test"))
      (some "https://a.test") reqA = Except.ok true :=
  (C4_exact_string "https://a.test" (some "https://a.test") reqA (by decide)).mpr
    ⟨by decide, Or.inr rfl⟩

/-- C5: for every configuration with an absent or wildcard origin
policy and every request with a truthy (non-empty) origin, the
middleware allows (the matcher resolves true, not a denial) and sets
the Access-Control-Allow-Origin header. -/
theorem C5_wildcard_always_allows (options : CrossCorsOptions) (req : Request)
    (res : ServerResponse)
    (hpol : options.origin = none ∨ options.origin = some (CrossCorsOrigin.str "*"))
    (ho : jsTruthyStr req.origin = true) :
    matchOrigin (some (resolve options).origin) req.origin req = Except.ok true ∧
    ((crosscors options req res).2).accessControlAllowOrigin = some "*" := by
  have hor : (resolve options).origin = CrossCorsOrigin.str "*" := by
    cases hpol with
    | inl h => simp [resolve, h]
    | inr h => simp [resolve, h]
  have hm : matchOrigin (some (resolve options).origin) req.origin req = Except.ok true := by
    rw [hor]
    unfold matchOrigin
    simp [truthyRule, ho]
  refine ⟨hm, ?_⟩
  have hproj := (handleCors_allow_snd_headers (resolve options) req res hm).1
  show ((handleCors (resolve options) req res).2).accessControlAllowOrigin = some "*"
  rw [hproj, setCorsHeaders_eq]
  simp [ho, hor, isWildcard]

/-- Witness for C5 with the empty options bag (absent policy). -/
theorem C5_wildcard_always_allows_witness :
    matchOrigin (some (resolve {}).origin) reqA.origin reqA = Except.ok true ∧
    ((crosscors {} reqA emptyResponse).2).accessControlAllowOrigin = some "*" :=
  C5_wildcard_always_allows {} reqA emptyResponse (Or.inl rfl) rfl

/-- C6: on allow with a truthy request origin, the middleware sets
Access-Control-Allow-Origin to the literal "*" exactly when the
configured policy is the wildcard string, otherwise to the request's
own origin value, and also sets Vary to Origin; with no truthy request
origin, neither header is touched. -/
theorem C6_allow_origin_and_vary (cfg : ResolvedConfig) (req : Request)
    (res : ServerResponse)
    (h : matchOrigin (some cfg.origin) req.origin req = Except.ok true) :
    (jsTruthyStr req.origin = true →
      ((handleCors cfg req res).2).accessControlAllowOrigin =
        some (if isWildcard cfg.origin then "*" else req.origin.getD "") ∧
      ((handleCors cfg req res).2).vary = some "Origin") ∧
    (jsTruthyStr req.origin = false →
      ((handleCors cfg req res).2).accessControlAllowOrigin =
        res.accessControlAllowOrigin ∧
      ((handleCors cfg req res).2).vary = res.vary) := by
  obtain ⟨h1, h2, -, -⟩ := handleCors_allow_snd_headers cfg req res h
  rw [h1, h2, setCorsHeaders_eq]
  constructor
  · intro ho
    simp [ho]
  · intro ho
    simp [ho]

/-- Witness for C6 at an exact-string policy echoing the request
origin. -/
theorem C6_allow_origin_and_vary_witness :
    ((handleCors (resolve exactOptions) reqA emptyResponse).2).accessControlAllowOrigin =
      some "https://a.test" ∧
    ((handleCors (resolve exactOptions) reqA emptyResponse).2).vary = some "Origin" := by
  have h := (C6_allow_origin_and_vary (resolve exactOptions) reqA emptyResponse rfl).1 rfl
  simpa [isWildcard, exactOptions, resolve, reqA] using h

/-- C7: for an allowed request whose normalized method is OPTIONS, the
middleware terminates the preflight when preflightContinue is false
(status set to the configured optionsSuccessStatus, defaulted to 204,
response ended with empty body, return true) and passes it through
when preflightContinue is true (headers set, status and ended flag
untouched, return false). -/
theorem C7_preflight (cfg : ResolvedConfig) (req : Request) (res : ServerResponse)
    (h : matchOrigin (some cfg.origin) req.origin req = Except.ok true)
    (hm : normalizeMethod req.method = "OPTIONS") :
    (cfg.preflightContinue = false →
      handleCors cfg req res =
        (Except.ok true,
         { setCorsHeaders cfg req res with
           statusCode := cfg.optionsSuccessStatus, ended := true })) ∧
    (cfg.preflightContinue = true →
      handleCors cfg req res = (Except.ok false, setCorsHeaders cfg req res) ∧
      (setCorsHeaders cfg req res).statusCode = res.statusCode ∧
      (setCorsHeaders cfg req res).ended = res.ended) ∧
    (resolve {}).optionsSuccessStatus = 204 := by
  rw [handleCors_allow cfg req res h, hm]
  refine ⟨fun hc => ?_, fun hc => ?_, rfl⟩
  · simp [hc]
  · refine ⟨by simp [hc], ?_, ?_⟩ <;> simp [setCorsHeaders_eq]

/-- Witness for C7 with the default configuration and a lower-case
options method. -/
theorem C7_preflight_witness :
    handleCors (resolve {}) reqOpt emptyResponse =
      (Except.ok true,
       { setCorsHeaders (resolve {}) reqOpt emptyResponse with
         statusCode := 204, ended := true }) := by
  have h := (C7_preflight (resolve {}) reqOpt emptyResponse rfl (by decide)).1 rfl
  simpa using h

/-- C8: on allow, the Access-Control-Allow-Headers header equals the
configured allowedHeaders joined by commas when allowedHeaders is set;
otherwise it echoes the request's truthy Access-Control-Request-Headers
value verbatim; otherwise it stays absent. -/
theorem C8_allow_headers (cfg : ResolvedConfig) (req : Request) (res : ServerResponse)
    (h : matchOrigin (some cfg.origin) req.origin req = Except.ok true)
    (hinit : res.accessControlAllowHeaders = none) :
    ((handleCors cfg req res).2).accessControlAllowHeaders =
      match cfg.allowedHeaders with
      | some hs => some (String.intercalate "," hs)
      | none =>
          if jsTruthyStr req.accessControlRequestHeaders then
            req.accessControlRequestHeaders
          else none := by
  obtain ⟨-, -, -, h4⟩ := handleCors_allow_snd_headers cfg req res h
  rw [h4, setCorsHeaders_eq, ← hinit]

/-- Witness for C8: default configuration, request-stated headers are
echoed verbatim. -/
theorem C8_allow_headers_witness :
    ((handleCors (resolve {}) reqHdr emptyResponse).2).accessControlAllowHeaders =
      some "X-Foo,X-Bar" := by
  have h := C8_allow_headers (resolve {}) reqHdr emptyResponse rfl rfl
  simpa [resolve, reqHdr, jsTruthyStr] using h

/-- C9: the decision is idempotent for non-dynamic policies — running
the middleware a second time over the response produced by the first
run yields the same boolean outcome and the same final response
(headers, status code and ended flag). -/
theorem C9_decide_idempotent (options : CrossCorsOptions) (req : Request)
    (res : ServerResponse)
    (_hnd : ∀ f, (resolve options).origin ≠ CrossCorsOrigin.fn f) :
    crosscors options req ((crosscors options req res).2) = crosscors options req res := by
  unfold crosscors
  rcases hm : matchOrigin (some (resolve options).origin) req.origin req with e | b
  · rw [handleCors_error (resolve options) req res e hm]
    exact handleCors_error _ _ _ _ hm
  · cases b
    · rw [handleCors_deny (resolve options) req res hm]
      exact handleCors_deny _ _ _ hm
    · rw [handleCors_allow (resolve options) req res hm]
      split
      · split
        · rw [handleCors_allow _ _ _ hm]
          simp_all [setCorsHeaders_idem]
        · rw [handleCors_allow _ _ _ hm]
          simp_all [setCorsHeaders_state_update, setCorsHeaders_idem]
      · rw [handleCors_allow _ _ _ hm]
        simp_all [setCorsHeaders_idem]

/-- Witness for C9 with the default (wildcard) configuration. -/
theorem C9_decide_idempotent_witness :
    crosscors {} reqA ((crosscors {} reqA emptyResponse).2) =
      crosscors {} reqA emptyResponse :=
  C9_decide_idempotent {} reqA emptyResponse
    (by intro f h; simp [resolve] at h)

/-- C10: an allowed request with an absent method field is normalized
to the empty-string method and treated as non-preflight: the allow
headers are set, status code and ended flag stay untouched, and the
middleware returns false without raising any error. -/
theorem C10_absent_method_non_preflight (options : CrossCorsOptions)
    (req : Request) (res : ServerResponse)
    (hmeth : req.method = none)
    (h : matchOrigin (some (resolve options).origin) req.origin req = Except.ok true) :
    normalizeMethod req.method = "" ∧
    crosscors options req res =
      (Except.ok false, setCorsHeaders (resolve options) req res) ∧
    ((crosscors options req res).2).statusCode = res.statusCode ∧
    ((crosscors options req res).2).ended = res.ended := by
  have hn : normalizeMethod req.method = "" := by
    simp [normalizeMethod, hmeth, jsTruthyStr]
  have hrun : crosscors options req res =
      (Except.ok false, setCorsHeaders (resolve options) req res) := by
    rw [crosscors, handleCors_allow _ _ _ h, hn]
    simp
  refine ⟨hn, hrun, ?_, ?_⟩ <;> rw [hrun] <;> simp [setCorsHeaders_eq]

/-- Witness for C10: default configuration, request with origin but no
method. -/
theorem C10_absent_method_non_preflight_witness :
    normalizeMethod reqA.method = "" ∧
    crosscors {} reqA emptyResponse =
      (Except.ok false, setCorsHeaders (resolve {}) reqA emptyResponse) ∧
    ((crosscors {} reqA emptyResponse).2).statusCode = emptyResponse.statusCode ∧
    ((crosscors {} reqA emptyResponse).2).ended = emptyResponse.ended :=
  C10_absent_method_non_preflight {} reqA emptyResponse rfl rfl

/-- C1 counterexample: a dynamic predicate that fails does NOT resolve
to a denial — the failure propagates out of the middleware (no headers
are set, but the result is a rejection, not false). -/
theorem C1_counterexample :
    (crosscors dynFailOptions reqA emptyResponse).1 = Except.error "boom" ∧
    (Except.error "boom" : Except Err Bool) ≠ Except.ok false ∧
    (crosscors dynFailOptions reqA emptyResponse).2 = emptyResponse :=
  ⟨rfl, fun h => Except.noConfusion h, rfl⟩

/-- C1 amended: when the origin policy is a dynamic predicate and the
predicate throws or its promise rejects, the failure propagates to the
host (the middleware's promise rejects with the same error) instead of
being converted to a denial; the response is left completely untouched
because headers are only set after a conclusive allow. -/
theorem C1_dynamic_failure_propagates (options : CrossCorsOptions) (req : Request)
    (res : ServerResponse) (f : Option String → Request → Except Err Bool) (e : Err)
    (hor : (resolve options).origin = CrossCorsOrigin.fn f)
    (ho : jsTruthyStr req.origin = true)
    (hf : f req.origin req = Except.error e) :
    crosscors options req res = (Except.error e, res) := by
  have hm : matchOrigin (some (resolve options).origin) req.origin req =
      Except.error e := by
    rw [hor]
    unfold matchOrigin
    simp [truthyRule, ho, hf]
  exact handleCors_error _ _ _ _ hm

/-- Witness for C1 amended at the always-failing predicate. -/
theorem C1_dynamic_failure_propagates_witness :
    crosscors dynFailOptions reqA emptyResponse =
      (Except.error "boom", emptyResponse) :=
  C1_dynamic_failure_propagates dynFailOptions reqA emptyResponse
    (fun _ _ => Except.error "boom") "boom" rfl rfl rfl

/-- Matching rule for one list element as the specification words it
(rules 3 and 4 of the origin matcher): a string element matches when
it is the literal "*" or equals the request origin byte-for-byte, a
pattern element matches when its predicate accepts the origin. -/
def specElemMatches (e : Sum String (String → Bool)) (o : String) : Bool :=
  match e with
  | Sum.inl s => s == "*" || s == o
  | Sum.inr t => t o

/-- C2 counterexample: inside a list the source compares a string
element only for equality, so the element "*" — which matches every
origin per the specification's ExactString rule — fails to match an
ordinary origin. -/
theorem C2_counterexample :
    specElemMatches (Sum.inl "*") "https://a.test" = true ∧
    matchOrigin (some (CrossCorsOrigin.list [Sum.inl "*"]))
      (some "https://a.test") reqA = Except.ok false ∧
    (Except.ok false : Except Err Bool) ≠ Except.ok true :=
  ⟨rfl, rfl, fun h => by simp at h⟩

/-- C2 amended: for a list policy and a truthy (non-empty) request
origin, the matcher returns true iff some element matches, where a
STRING element matches only by byte-for-byte equality with the origin
("*" has no special meaning inside a list) and a pattern element
matches when its predicate accepts the origin; the empty list yields
false. -/
theorem C2_list_matching (l : List (Sum String (String → Bool))) (o : String)
    (req : Request) (ho : o ≠ "") :
    (matchOrigin (some (CrossCorsOrigin.list l)) (some o) req = Except.ok true ↔
      (∃ s, Sum.inl s ∈ l ∧ s = o) ∨ ∃ p, Sum.inr p ∈ l ∧ p o = true) ∧
    matchOrigin (some (CrossCorsOrigin.list [])) (some o) req = Except.ok false := by
  have ht : jsTruthyStr (some o) = true := by simp [jsTruthyStr, ho]
  constructor
  · unfold matchOrigin
    simp only [truthyRule, ht]
    simp [List.any_eq_true]
  · unfold matchOrigin
    simp [truthyRule, ht]

/-- Witness for C2 amended at a one-element exact list. -/
theorem C2_list_matching_witness :
    matchOrigin (some (CrossCorsOrigin.list [Sum.inl "https://a.test"]))
      (some "https://a.test") reqA = Except.ok true :=
  (C2_list_matching [Sum.inl "https://a.test"] "https://a.test" reqA
      (by decide)).1.mpr (Or.inl ⟨"https://a.test", by simp, rfl⟩)
